import Mathlib

/-!
Shallow embedding of the metadata-resolution subsystem of `generate-assets`
(src/generate-assets/src/lib.rs and src/generate-assets/src/clients/).

Conventions:
- Rust `Option<T>` becomes `Option T`; `anyhow::Result<T>` becomes `Except String T`
  carrying the `bail!` / `anyhow!` / `context` message.
- Network calls and the sqlite dump are external effects: a configured client is
  modelled together with the response its remote endpoint would produce.
- A Rust panic (out-of-bounds slice index) is modelled by the dedicated
  `RunResult.panics` outcome, distinct from a returned error.
- Rust string operations are modelled by executable functions over the character
  list `String.data`, so that concrete runs reduce inside the kernel.
-/

/-! ## Executable string primitives (models of the Rust `str` operations used) -/

/-- Byte-lexicographic comparison of character lists; `charListLe a b` models the
`Ord` instance of Rust `String` (for the code points appearing here, code-point
order coincides with UTF-8 byte order). -/
def charListLe : List Char → List Char → Bool
  | [], _ => true
  | _ :: _, [] => false
  | a :: as, b :: bs => if a = b then charListLe as bs else decide (a < b)

/-- Lexicographic order on strings, as Rust `String: Ord` (used by `BTreeMap`). -/
def strLe (a b : String) : Bool := charListLe a.data b.data

/-- `strLe` as a relation, for sortedness statements. -/
def leRel (a b : String) : Prop := strLe a b = true

instance : DecidableRel leRel := fun _ _ => inferInstanceAs (Decidable (_ = true))

/-- Model of Rust `str::starts_with` with a literal pattern. -/
def strStartsWith (s pat : String) : Bool := pat.data.isPrefixOf s.data

/-- Model of Rust `str::trim` on the character list (whitespace on both ends;
restricted to the ASCII whitespace relevant to license strings). -/
def trimChars (l : List Char) : List Char :=
  ((l.dropWhile Char.isWhitespace).reverse.dropWhile Char.isWhitespace).reverse

/-- Model of Rust `str::trim` on strings. -/
def strTrim (s : String) : String := String.mk (trimChars s.data)

/-- Worker for `strSplitOnSep`: scans the input left to right; whenever the
separator is a prefix of the rest, emits the accumulated piece and continues
after the separator. The fuel argument (initially the input length) makes the
recursion structural; it never runs out for a non-empty separator. -/
def splitSepAux (sep : List Char) : Nat → List Char → List Char → List (List Char)
  | _, [], acc => [acc.reverse]
  | 0, l, acc => [acc.reverse ++ l]
  | n + 1, c :: cs, acc =>
    if sep.isPrefixOf (c :: cs) then
      acc.reverse :: splitSepAux sep n ((c :: cs).drop sep.length) []
    else
      splitSepAux sep n cs (c :: acc)

/-- Model of Rust `str::split` with a literal (non-empty) string pattern:
leftmost, non-overlapping matches; empty pieces are kept. -/
def strSplitOnSep (s sep : String) : List String :=
  (splitSepAux sep.data s.data.length s.data []).map String.mk

/-- Model of Rust `str::replace('_', "-")`: a single-character pattern replaced
by a single character is a character map. -/
def strReplaceUnderscore (s : String) : String :=
  String.mk (s.data.map (fun c => if c = '_' then '-' else c))

/-! ### Order facts about `charListLe` / `strLe` -/

theorem charListLe_total : ∀ a b : List Char, charListLe a b = true ∨ charListLe b a = true
  | [], _ => Or.inl rfl
  | _ :: _, [] => Or.inr rfl
  | a :: as, b :: bs => by
    by_cases hab : a = b
    · subst hab
      simpa [charListLe] using charListLe_total as bs
    · rcases lt_or_gt_of_ne hab with h | h
      · left
        simp only [charListLe, if_neg hab, decide_eq_true_eq]
        exact h
      · right
        have hba : ¬ b = a := fun hba => hab hba.symm
        simp only [charListLe, if_neg hba, decide_eq_true_eq]
        exact h

theorem charListLe_trans : ∀ a b c : List Char,
    charListLe a b = true → charListLe b c = true → charListLe a c = true
  | [], _, _, _, _ => rfl
  | _ :: _, [], _, h1, _ => by simp [charListLe] at h1
  | _ :: _, _ :: _, [], _, h2 => by simp [charListLe] at h2
  | a :: as, b :: bs, c :: cs, h1, h2 => by
    by_cases hab : a = b
    · subst hab
      simp only [charListLe, if_pos rfl] at h1
      by_cases hbc : a = c
      · subst hbc
        simp only [charListLe, if_pos rfl] at h2 ⊢
        exact charListLe_trans as bs cs h1 h2
      · simp only [charListLe, if_neg hbc] at h2 ⊢
        exact h2
    · simp only [charListLe, if_neg hab, decide_eq_true_eq] at h1
      by_cases hbc : b = c
      · subst hbc
        simp only [charListLe, if_neg hab, decide_eq_true_eq]
        exact h1
      · simp only [charListLe, if_neg hbc, decide_eq_true_eq] at h2
        have hac : a < c := lt_trans h1 h2
        simp [charListLe, ne_of_lt hac, hac]

theorem charListLe_antisymm : ∀ a b : List Char,
    charListLe a b = true → charListLe b a = true → a = b
  | [], [], _, _ => rfl
  | [], _ :: _, _, h2 => by simp [charListLe] at h2
  | _ :: _, [], h1, _ => by simp [charListLe] at h1
  | a :: as, b :: bs, h1, h2 => by
    by_cases hab : a = b
    · subst hab
      simp only [charListLe, if_pos rfl] at h1 h2
      rw [charListLe_antisymm as bs h1 h2]
    · simp only [charListLe, if_neg hab, decide_eq_true_eq] at h1
      simp only [charListLe, if_neg (fun hba : b = a => hab hba.symm),
        decide_eq_true_eq] at h2
      exact absurd h1 (lt_asymm h2)

theorem strLe_antisymm {a b : String} (h1 : strLe a b = true) (h2 : strLe b a = true) :
    a = b := by
  cases a; cases b
  exact congrArg String.mk (charListLe_antisymm _ _ h1 h2)

instance : IsTotal String leRel := ⟨fun a b => charListLe_total a.data b.data⟩

instance : IsTrans String leRel := ⟨fun a b c => charListLe_trans a.data b.data c.data⟩

/-! ## The asset record and the merge step (src/generate-assets/src/lib.rs) -/

/-- Embeds `Asset` (lib.rs, lines 12-26). `PathBuf` is modelled as `String`. -/
structure Asset where
  name : String
  link : String
  description : String
  order : Option Nat
  image : Option String
  licenses : Option (List String)
  bevy_versions : Option (List String)
  original_path : Option String
deriving DecidableEq

/-- Embeds `Asset::set_license` (lib.rs, lines 30-41): returns early when
`licenses` is already `Some`; otherwise, when a license string is given, splits
it on the literal separator `" OR "`, trims each part and stores the list. -/
def Asset.set_license (self : Asset) (license : Option String) : Asset :=
  if self.licenses.isSome then self
  else
    match license with
    | some license =>
        { self with licenses := some ((strSplitOnSep license " OR ").map strTrim) }
    | none => self

/-- Embeds `Asset::set_bevy_version` (lib.rs, lines 43-50): returns early when
`bevy_versions` is already `Some`; otherwise, when a version is given, stores it
as a one-element list. -/
def Asset.set_bevy_version (self : Asset) (version : Option String) : Asset :=
  if self.bevy_versions.isSome then self
  else
    match version with
    | some version => { self with bevy_versions := some [version] }
    | none => self

/-- The `(license, version)` tuple that `get_extra_metadata` (lib.rs, line 225)
destructures from a backend's result. -/
abbrev MetaPair := Option String × Option String

/-- Embeds the merge tail of `get_extra_metadata` (lib.rs, lines 225-228): when
resolution produced a metadata pair, push it through `set_license` and
`set_bevy_version`; otherwise leave the asset untouched. -/
def merge_metadata (asset : Asset) (metadata : Option MetaPair) : Asset :=
  match metadata with
  | some (license, version) => (asset.set_license license).set_bevy_version version
  | none => asset

/-- Embeds the dispatch of `get_extra_metadata` (lib.rs, lines 185-231).

`host` is the value `url::Url::parse(&asset.link)?.host_str()` returns (URL
parsing itself is the external `url` crate). Each configured client is modelled
as `some r` where `r : Except String MetaPair` is the result the corresponding
per-backend call would produce (the arm bodies are of the shape
`Some(get_metadata_from_…(…)?)`, so a client error propagates and a successful
call wraps the pair in `some`); an unconfigured client is `none`.

The source's `Some("crates.io")` arm carries the guard
`if crates_io_client.is_some()`, so when the crates.io client is absent that
pattern does not match and `Some("crates.io")` falls through to the wildcard
arm `_ => bail!("Unknown host: {}", asset.link)`; the `none` branch of the
first case below mirrors exactly that fall-through (the arm's own
`else { None }` branch is unreachable under the guard). The `github.com` and
`gitlab.com` arms have no guard and return `None` for an absent client. -/
def get_extra_metadata (asset : Asset) (host : Option String)
    (crates_io_client github_client gitlab_client : Option (Except String MetaPair)) :
    Except String Asset :=
  let metadata : Except String (Option MetaPair) :=
    match host with
    | some "crates.io" =>
      match crates_io_client with
      | some result => result.map some
      | none => Except.error ("Unknown host: " ++ asset.link)
    | some "github.com" =>
      match github_client with
      | some result => result.map some
      | none => Except.ok none
    | some "gitlab.com" =>
      match gitlab_client with
      | some result => result.map some
      | none => Except.ok none
    | none => Except.ok none
    | some _ => Except.error ("Unknown host: " ++ asset.link)
  metadata.map (merge_metadata asset)

/-! ## Client-side data (src/generate-assets/src/clients/) -/

/-- The `Metadata` record the clients produce. Its declaration is not among the
provided sources (`clients/mod.rs` holds only the traits); the two fields are
fixed by its construction sites (`crates_io.rs`, lines 73-76 and
`clients/git/mod.rs`, lines 51-54) and by the spec's data model:
`{ license: optional string, compatibility_version: optional string }`. -/
structure Metadata where
  license : Option String
  bevy_version : Option String
deriving DecidableEq

/-- Outcome of running a fallible Rust function that may also panic. -/
inductive RunResult (α : Type) where
  | ok (val : α)
  | err (msg : String)
  | panics
deriving DecidableEq

/-- The slice of a parsed `url::Url` the clients read: `host_str()` and
`path_segments().map(|c| c.collect::<Vec<_>>())` (the latter is `None` for
cannot-be-a-base URLs, and the source calls `.unwrap()` on it). -/
structure Url where
  host : Option String
  path_segments : Option (List String)

/-! ### Manifest model (the slice of `cargo_toml` the resolver reads) -/

/-- The fields of `cargo_toml::DependencyDetail` read by
`get_bevy_dependency_version` (`clients/git/mod.rs`, lines 96-113). -/
structure DependencyDetail where
  version : Option String
  git : Option String
  branch : Option String
deriving DecidableEq

/-- `cargo_toml::Dependency`: either a plain version string or a detailed
table. -/
inductive Dependency where
  | simple (version : String)
  | detailed (detail : DependencyDetail)
deriving DecidableEq

/-- The fields of `cargo_toml::Package` read by `get_license`
(`clients/git/mod.rs`, lines 60-76). -/
structure Package where
  license : Option String
  license_file : Option String
deriving DecidableEq

/-- The slice of `cargo_toml::Manifest` the resolver reads. `dependencies` is
kept in the manifest's textual order; `cargo_toml::DepsSet` is a
`BTreeMap<String, Dependency>`, so iteration over its keys is modelled by
sorting (`sortedDepKeys`) and lookup by key search (`depsGet`). TOML forbids
duplicate keys in one table, so the keys are distinct. -/
structure Manifest where
  package : Option Package
  dependencies : List (String × Dependency)

/-- Embeds `get_license` (`clients/git/mod.rs`, lines 60-76): prefer
`package.license`; else map a present `license_file` to `"non-standard"`; no
`package` section gives `None`. -/
def get_license (cargo_manifest : Manifest) : Option String :=
  match cargo_manifest.package with
  | some package =>
    match package.license with
    | some license => some license
    | none => package.license_file.map (fun _ => "non-standard")
  | none => none

/-- Embeds `get_bevy_dependency_version` (`clients/git/mod.rs`, lines 96-113):
a simple dependency yields its version string; a detailed one yields its
explicit version if present, else `"main"`/`"git"` for a git source depending
on whether `branch` is literally `"main"`, else `None`. -/
def get_bevy_dependency_version : Dependency → Option String
  | Dependency.simple version => some version
  | Dependency.detailed detail =>
    match detail.version with
    | some version => some version
    | none =>
      if detail.git.isSome then
        if detail.branch = some "main" then some "main" else some "git"
      else
        none

/-- `BTreeMap::keys()` of the dependency table: the key set in ascending
byte-lexicographic order. -/
def sortedDepKeys (deps : List (String × Dependency)) : List String :=
  (deps.map Prod.fst).insertionSort leRel

/-- `BTreeMap::get(key)` of the dependency table. -/
def depsGet (deps : List (String × Dependency)) (key : String) : Option Dependency :=
  (deps.find? (fun p => p.1 == key)).map Prod.snd

/-- Embeds `get_bevy_version` (`clients/git/mod.rs`, lines 80-91):
`dependencies.keys().find(|k| k.starts_with("bevy"))`, then look the key up and
extract its version. The key iteration is the `BTreeMap` one: ascending key
order. -/
def get_bevy_version (cargo_manifest : Manifest) : Option String :=
  ((sortedDepKeys cargo_manifest.dependencies).find?
      (fun k => strStartsWith k "bevy")).bind
    fun key => (depsGet cargo_manifest.dependencies key).bind get_bevy_dependency_version

/-- Modelled from the spec: the claim's reading of `get_bevy_version`, which
scans the dependency table in the manifest's textual order ("only the first
encountered, in table order, is used — no tie-break beyond manifest order").
Kept separate from `get_bevy_version` (the code) to compare the two. -/
def get_bevy_version_spec (cargo_manifest : Manifest) : Option String :=
  (cargo_manifest.dependencies.find? (fun p => strStartsWith p.1 "bevy")).bind
    fun p => get_bevy_dependency_version p.2

/-! ### crates.io registry backend (src/generate-assets/src/clients/crates_io.rs) -/

/-- One row of `cratesio_dbdump_lookup::get_rev_dependency(db, name, "bevy")`.
The source destructures the row tuple as `(_, _, license, _, deps)`; only the
two read components are kept. `deps` is itself a `Result` of a list of pairs
whose first component is the declared version constraint. -/
structure RevDepRow where
  license : String
  deps : Except String (List (String × String))

/-- The queryable registry snapshot, specialised (as in the source) to reverse
dependencies of the fixed consumer `"bevy"`: maps a crate name to the outcome
of `get_rev_dependency(db, name, "bevy")`, whose rows are themselves
`Result`-wrapped. -/
def CratesIoDb : Type := String → Except String (List (Except String RevDepRow))

/-- Embeds `get_metadata_from_db_by_crate_name` (crates_io.rs, lines 60-80):
propagate a query error; if the first row exists and is `Ok`, report its
license and the first dependency pair's version constraint; otherwise fail with
"Not found in crates.io db". -/
def get_metadata_from_db_by_crate_name (db : CratesIoDb) (crate_name : String) :
    Except String Metadata :=
  match db crate_name with
  | Except.error e => Except.error e
  | Except.ok rows =>
    match rows.head? with
    | some (Except.ok row) =>
      Except.ok
        { license := some row.license
          bevy_version := (row.deps.toOption.bind List.head?).map Prod.fst }
    | _ => Except.error ("Not found in crates.io db: " ++ crate_name)

/-- Embeds `get_metadata_from_crates_io_db` (crates_io.rs, lines 48-58): try
the literal name; on failure try once more with underscores replaced by
hyphens; if both fail, report "Failed to get data from crates.io db". -/
def get_metadata_from_crates_io_db (db : CratesIoDb) (crate_name : String) :
    Except String Metadata :=
  match get_metadata_from_db_by_crate_name db crate_name with
  | Except.ok metadata => Except.ok metadata
  | Except.error _ =>
    match get_metadata_from_db_by_crate_name db (strReplaceUnderscore crate_name) with
    | Except.ok metadata => Except.ok metadata
    | Except.error _ =>
      Except.error ("Failed to get data from crates.io db for " ++ crate_name)

/-- Embeds `CratesioClient` (crates_io.rs, lines 9-12): the open dump
connection. -/
structure CratesioClient where
  db : CratesIoDb

/-- Embeds `CratesioCrateClient` (crates_io.rs, lines 36-39). -/
structure CratesioCrateClient where
  client : CratesioClient
  crate_name : String

/-- Embeds `CratesioClient::try_get_repository_client` (crates_io.rs, lines
17-33): bail on a missing or foreign host; then `segments[1]` — an
out-of-bounds index panics (`RunResult.panics`), as does the `.unwrap()` on
`path_segments()` for a cannot-be-a-base URL. -/
def CratesioClient.try_get_repository_client (self : CratesioClient) (url : Url) :
    RunResult CratesioCrateClient :=
  match url.host with
  | some host =>
    if host ≠ "crates.io" then RunResult.err "Not a crates.io link"
    else
      match url.path_segments with
      | none => RunResult.panics
      | some segments =>
        match segments[1]? with
        | some crate_name => RunResult.ok { client := self, crate_name := crate_name }
        | none => RunResult.panics
  | none => RunResult.err "No host in URL"

/-! ### GitHub backend (src/generate-assets/src/clients/github.rs) -/

/-- Embeds `GithubClient` (github.rs, lines 24-28); the `ureq::Agent` is an
opaque transport and is omitted. -/
structure GithubClient where
  token : String
deriving DecidableEq

/-- Embeds `GithubRepoClient` (github.rs, lines 64-68). -/
structure GithubRepoClient where
  client : GithubClient
  username : String
  repository_name : String
deriving DecidableEq

/-- Embeds `GithubClient::try_get_repository_client` (github.rs, lines 43-61):
bail on a missing or foreign host; then `segments[0]` and `segments[1]` — an
out-of-bounds index panics. -/
def GithubClient.try_get_repository_client (self : GithubClient) (url : Url) :
    RunResult GithubRepoClient :=
  match url.host with
  | some host =>
    if host ≠ "github.com" then RunResult.err "Not a GitHub repository"
    else
      match url.path_segments with
      | none => RunResult.panics
      | some segments =>
        match segments[0]?, segments[1]? with
        | some username, some repository_name =>
          RunResult.ok
            { client := self, username := username, repository_name := repository_name }
        | _, _ => RunResult.panics
  | none => RunResult.err "No host in URL"

/-! ### GitLab backend (src/generate-assets/src/clients/gitlab.rs) -/

/-- Embeds `GitlabProjectSearchResponse` (gitlab.rs, lines 8-12). -/
structure GitlabProjectSearchResponse where
  id : Nat
  default_branch : String

/-- Embeds `GitlabClient` (gitlab.rs, lines 20-25); the `ureq::Agent` is
omitted and the `search_project_by_name` network call (lines 41-53) is
modelled by the `search` field: the response list its remote would return for
a repository name, or a transport error. -/
structure GitlabClient where
  token : String
  search : String → Except String (List GitlabProjectSearchResponse)

/-- Embeds `GitlabRepoClient` (gitlab.rs, lines 85-89). -/
structure GitlabRepoClient where
  client : GitlabClient
  id : Nat
  default_branch : String

/-- Embeds `GitlabClient::try_get_repository_client` (gitlab.rs, lines 59-82):
bail on a missing or foreign host; `segments[1]` panics when out of bounds;
then search the remote by name and take the first hit, failing with
"Failed to find gitlab repo" when the search comes back empty. -/
def GitlabClient.try_get_repository_client (self : GitlabClient) (url : Url) :
    RunResult GitlabRepoClient :=
  match url.host with
  | some host =>
    if host ≠ "gitlab.com" then RunResult.err "Not a GitLab repository"
    else
      match url.path_segments with
      | none => RunResult.panics
      | some segments =>
        match segments[1]? with
        | some repository_name =>
          match self.search repository_name with
          | Except.error e => RunResult.err e
          | Except.ok search_result =>
            match search_result.head? with
            | some repo =>
              RunResult.ok
                { client := self, id := repo.id, default_branch := repo.default_branch }
            | none => RunResult.err "Failed to find gitlab repo"
        | none => RunResult.panics
  | none => RunResult.err "No host in URL"

/-- Embeds `GitlabRepoClient::try_get_license` (gitlab.rs, lines 114-118): the
backend exposes no license endpoint, so the call always fails. -/
def GitlabRepoClient.try_get_license (_self : GitlabRepoClient) : Except String String :=
  Except.error "License fetching is not supported by GitLab."

/-! ## Helper lemmas -/

theorem set_license_of_isSome (a : Asset) (l : Option String)
    (h : a.licenses.isSome = true) : a.set_license l = a := by
  unfold Asset.set_license
  rw [if_pos h]

theorem set_bevy_version_of_isSome (a : Asset) (v : Option String)
    (h : a.bevy_versions.isSome = true) : a.set_bevy_version v = a := by
  unfold Asset.set_bevy_version
  rw [if_pos h]

theorem set_license_bevy_versions (a : Asset) (l : Option String) :
    (a.set_license l).bevy_versions = a.bevy_versions := by
  unfold Asset.set_license
  by_cases h : a.licenses.isSome = true
  · rw [if_pos h]
  · rw [if_neg h]
    cases l <;> rfl

theorem set_bevy_version_licenses (a : Asset) (v : Option String) :
    (a.set_bevy_version v).licenses = a.licenses := by
  unfold Asset.set_bevy_version
  by_cases h : a.bevy_versions.isSome = true
  · rw [if_pos h]
  · rw [if_neg h]
    cases v <;> rfl

/-- In a `leRel`-sorted list, `find?` returns the given element as soon as it
satisfies the predicate, belongs to the list, and is a `strLe`-lower bound of
every satisfying element. -/
theorem find?_eq_some_of_sorted_min {p : String → Bool} {k : String} :
    ∀ l : List String, l.Sorted leRel → k ∈ l → p k = true →
      (∀ y ∈ l, p y = true → strLe k y = true) → l.find? p = some k
  | [], _, hk, _, _ => absurd hk (List.not_mem_nil k)
  | a :: t, hs, hk, hp, hmin => by
    rw [List.sorted_cons] at hs
    by_cases hpa : p a = true
    · rw [List.find?_cons_of_pos t hpa]
      rcases List.mem_cons.mp hk with rfl | hkt
      · rfl
      · have h1 : strLe a k = true := hs.1 k hkt
        have h2 : strLe k a = true := hmin a (List.mem_cons_self a t) hpa
        rw [strLe_antisymm h2 h1]
    · rw [List.find?_cons_of_neg t hpa]
      have hkt : k ∈ t := by
        rcases List.mem_cons.mp hk with rfl | hkt
        · exact absurd hp hpa
        · exact hkt
      exact find?_eq_some_of_sorted_min t hs.2 hkt hp
        (fun y hy hpy => hmin y (List.mem_cons_of_mem a hy) hpy)

theorem two_le_length_of_getElem_one {α : Type} {l : List α} {x : α}
    (h : l[1]? = some x) : 2 ≤ l.length := by
  match l with
  | [] => simp at h
  | [a] => simp at h
  | a :: b :: t => simp only [List.length_cons]; omega

/-! ## Sample inputs used by witnesses and counterexamples -/

/-- An asset whose author already declared both licenses and versions. -/
def assetDeclared : Asset :=
  { name := "Declared", link := "https://example.com/a/b", description := ""
    order := none, image := none, licenses := some ["MIT"]
    bevy_versions := some ["0.13"], original_path := none }

/-- An asset with no author-declared metadata. -/
def assetBare : Asset :=
  { name := "Bare", link := "https://example.com/a/b", description := ""
    order := none, image := none, licenses := none
    bevy_versions := none, original_path := none }

/-- An asset whose link points at crates.io. -/
def assetCratesIo : Asset :=
  { name := "Crate asset", link := "https://crates.io/crates/bevy_foo", description := ""
    order := none, image := none, licenses := none
    bevy_versions := none, original_path := none }

/-- An asset whose link parses to a URL with no host component. -/
def assetNoHost : Asset :=
  { name := "No host", link := "mailto:hello@example.com", description := ""
    order := none, image := none, licenses := none
    bevy_versions := none, original_path := none }

/-! ## Claims -/

/-- C1: the merge step leaves an already non-absent `licenses` field
byte-identical and an already non-absent `bevy_versions` field byte-identical,
regardless of the resolved metadata passed in: resolution output never removes
or overwrites an author-declared value. -/
theorem merge_metadata_preserves_declared (asset : Asset) (metadata : Option MetaPair) :
    (asset.licenses.isSome = true →
      (merge_metadata asset metadata).licenses = asset.licenses) ∧
    (asset.bevy_versions.isSome = true →
      (merge_metadata asset metadata).bevy_versions = asset.bevy_versions) := by
  constructor
  · intro h
    cases metadata with
    | none => rfl
    | some p =>
      obtain ⟨license, version⟩ := p
      show ((asset.set_license license).set_bevy_version version).licenses = asset.licenses
      rw [set_bevy_version_licenses, set_license_of_isSome asset license h]
  · intro h
    cases metadata with
    | none => rfl
    | some p =>
      obtain ⟨license, version⟩ := p
      show ((asset.set_license license).set_bevy_version version).bevy_versions =
        asset.bevy_versions
      have h' : (asset.set_license license).bevy_versions.isSome = true := by
        rw [set_license_bevy_versions]; exact h
      rw [set_bevy_version_of_isSome _ _ h', set_license_bevy_versions]

/-- C1 witness: merging fresh resolved metadata into an asset that declares
`["MIT"]` and `["0.13"]` changes neither field. -/
theorem merge_metadata_preserves_declared_witness :
    (merge_metadata assetDeclared (some (some "Apache-2.0", some "0.14"))).licenses =
      some ["MIT"] ∧
    (merge_metadata assetDeclared (some (some "Apache-2.0", some "0.14"))).bevy_versions =
      some ["0.13"] :=
  ⟨(merge_metadata_preserves_declared assetDeclared
      (some (some "Apache-2.0", some "0.14"))).1 rfl,
   (merge_metadata_preserves_declared assetDeclared
      (some (some "Apache-2.0", some "0.14"))).2 rfl⟩

/-- C3: for the selected framework dependency, a simple dependency resolves to
its version string verbatim; a detailed dependency with an explicit version
resolves to that version; a detailed dependency with a git source and no
version resolves to `"main"` exactly when the branch is `"main"` and to `"git"`
otherwise (including an absent branch); with neither version nor git source the
resolved version is absent. -/
theorem get_bevy_dependency_version_cases :
    (∀ version : String,
        get_bevy_dependency_version (Dependency.simple version) = some version) ∧
    (∀ (version : String) (git branch : Option String),
        get_bevy_dependency_version (Dependency.detailed ⟨some version, git, branch⟩) =
          some version) ∧
    (∀ (git : String) (branch : Option String),
        get_bevy_dependency_version (Dependency.detailed ⟨none, some git, branch⟩) =
          if branch = some "main" then some "main" else some "git") ∧
    (∀ branch : Option String,
        get_bevy_dependency_version (Dependency.detailed ⟨none, none, branch⟩) = none) :=
  ⟨fun _ => rfl, fun _ _ _ => rfl, fun _ _ => rfl, fun _ => rfl⟩

/-- C4: a declared `package.license` wins exactly, regardless of
`license_file`; with no `license` but a `license_file` the resolved license is
exactly `"non-standard"`; with neither (or no package section) it is absent. -/
theorem get_license_cases :
    (∀ (license : String) (license_file : Option String)
        (deps : List (String × Dependency)),
        get_license ⟨some ⟨some license, license_file⟩, deps⟩ = some license) ∧
    (∀ (license_file : String) (deps : List (String × Dependency)),
        get_license ⟨some ⟨none, some license_file⟩, deps⟩ = some "non-standard") ∧
    (∀ deps : List (String × Dependency),
        get_license ⟨some ⟨none, none⟩, deps⟩ = none) ∧
    (∀ deps : List (String × Dependency), get_license ⟨none, deps⟩ = none) :=
  ⟨fun _ _ _ => rfl, fun _ _ => rfl, fun _ => rfl, fun _ => rfl⟩

/-- C7: when `licenses` is absent and a license string is resolved,
`set_license` stores the ordered sequence obtained by splitting on the literal
separator `" OR "` and trimming each part. -/
theorem set_license_splits (asset : Asset) (license : String)
    (h : asset.licenses = none) :
    (asset.set_license (some license)).licenses =
      some ((strSplitOnSep license " OR ").map strTrim) := by
  unfold Asset.set_license
  rw [h]
  rfl

/-- C7 witness: `"MIT OR Apache-2.0"` is stored as `["MIT", "Apache-2.0"]` and
`"MIT"` as `["MIT"]`. -/
theorem set_license_splits_witness :
    (assetBare.set_license (some "MIT OR Apache-2.0")).licenses =
      some ["MIT", "Apache-2.0"] ∧
    (assetBare.set_license (some "MIT")).licenses = some ["MIT"] := by
  constructor
  · rw [set_license_splits assetBare "MIT OR Apache-2.0" rfl]
    decide
  · rw [set_license_splits assetBare "MIT" rfl]
    decide

/-- C9: for every possible GitLab repository handle, the license fetch fails
with the "license fetching not supported" error; in particular it never
returns a license value. -/
theorem gitlab_license_always_unsupported (handle : GitlabRepoClient) :
    handle.try_get_license =
      Except.error "License fetching is not supported by GitLab." := rfl

/-- C2 (failing input): with the crates.io client unconfigured, an asset whose
link host is `crates.io` does not get the silent Skip the claim demands: the
guarded `Some("crates.io")` arm falls through to the wildcard and resolution
fails with the "Unknown host" error. -/
theorem crates_io_unconfigured_bails_unknown_host :
    get_extra_metadata assetCratesIo (some "crates.io") none none none =
      Except.error "Unknown host: https://crates.io/crates/bevy_foo" := rfl

/-- C8 counterexample: an asset whose link parses to a URL with no host
component resolves successfully with the asset unchanged, instead of failing
with the claimed "unknown host" error. -/
theorem no_host_skips_counterexample :
    get_extra_metadata assetNoHost none none none none = Except.ok assetNoHost := rfl

/-- C8 amended: for every asset link that parses to a URL with no host
component, per-asset resolution returns success with no metadata written
(Skip), leaving the asset unchanged. -/
theorem no_host_skips (asset : Asset)
    (crates_io_client github_client gitlab_client : Option (Except String MetaPair)) :
    get_extra_metadata asset none crates_io_client github_client gitlab_client =
      Except.ok asset := rfl

/-- C5: registry lookup tries the literal name first and uses its row when
found; exactly when the literal lookup fails it retries once with every
underscore replaced by a hyphen and uses that row; the whole lookup fails
exactly when both the literal and the hyphenated name fail. -/
theorem crates_io_lookup_fallback (db : CratesIoDb) (crate_name : String) :
    (∀ m, get_metadata_from_db_by_crate_name db crate_name = Except.ok m →
        get_metadata_from_crates_io_db db crate_name = Except.ok m) ∧
    (∀ e m, get_metadata_from_db_by_crate_name db crate_name = Except.error e →
        get_metadata_from_db_by_crate_name db (strReplaceUnderscore crate_name) =
          Except.ok m →
        get_metadata_from_crates_io_db db crate_name = Except.ok m) ∧
    ((∃ e, get_metadata_from_crates_io_db db crate_name = Except.error e) ↔
      ((∃ e1, get_metadata_from_db_by_crate_name db crate_name = Except.error e1) ∧
       (∃ e2, get_metadata_from_db_by_crate_name db (strReplaceUnderscore crate_name) =
          Except.error e2))) := by
  refine ⟨?_, ?_, ?_⟩
  · intro m hm
    unfold get_metadata_from_crates_io_db
    rw [hm]
  · intro e m h1 h2
    unfold get_metadata_from_crates_io_db
    rw [h1, h2]
  · cases h1 : get_metadata_from_db_by_crate_name db crate_name with
    | ok m =>
      unfold get_metadata_from_crates_io_db
      rw [h1]
      simp
    | error e =>
      cases h2 : get_metadata_from_db_by_crate_name db (strReplaceUnderscore crate_name) with
      | ok m =>
        unfold get_metadata_from_crates_io_db
        rw [h1, h2]
        simp
      | error e2 =>
        unfold get_metadata_from_crates_io_db
        rw [h1, h2]
        simp

/-- The registry snapshot for the C5 witness: no row under `"foo_bar"`, one row
under `"foo-bar"`. -/
def dbFooBar : CratesIoDb := fun crate_name =>
  if crate_name = "foo-bar" then
    Except.ok [Except.ok { license := "MIT", deps := Except.ok [("0.14", "bevy")] }]
  else
    Except.ok []

/-- C5 witness: `"foo_bar"` is absent under the literal name but resolves via
the hyphenated row `"foo-bar"`. -/
theorem crates_io_lookup_fallback_witness :
    get_metadata_from_crates_io_db dbFooBar "foo_bar" =
      Except.ok { license := some "MIT", bevy_version := some "0.14" } :=
  (crates_io_lookup_fallback dbFooBar "foo_bar").2.1
    "Not found in crates.io db: foo_bar"
    { license := some "MIT", bevy_version := some "0.14" }
    rfl rfl

/-- A manifest whose textual order lists `bevy_x` before `bevy`. -/
def manifestTwoBevyKeys : Manifest :=
  { package := none
    dependencies := [("bevy_x", Dependency.simple "0.5"), ("bevy", Dependency.simple "0.9")] }

/-- C6 counterexample: with `bevy_x = "0.5"` written before `bevy = "0.9"` in
the manifest, the code resolves `"0.9"` (the key set iterates in sorted map
order, `"bevy"` first) while the claimed manifest-order scan would resolve
`"0.5"` (from `bevy_x`, the first key in manifest order). -/
theorem get_bevy_version_ignores_manifest_order :
    get_bevy_version manifestTwoBevyKeys = some "0.9" ∧
    get_bevy_version_spec manifestTwoBevyKeys = some "0.5" := by
  constructor
  · decide
  · decide

/-- C6 amended: the compatibility version is extracted from the least
dependency key in byte-lexicographic order whose name starts with `"bevy"`
(the dependency table is deserialized into an ordered map, so iteration is in
ascending key order, not manifest order). -/
theorem get_bevy_version_min_key (cargo_manifest : Manifest) (k : String)
    (hmem : k ∈ cargo_manifest.dependencies.map Prod.fst)
    (hpre : strStartsWith k "bevy" = true)
    (hmin : ∀ y ∈ cargo_manifest.dependencies.map Prod.fst,
        strStartsWith y "bevy" = true → strLe k y = true) :
    get_bevy_version cargo_manifest =
      (depsGet cargo_manifest.dependencies k).bind get_bevy_dependency_version := by
  unfold get_bevy_version
  rw [find?_eq_some_of_sorted_min (sortedDepKeys cargo_manifest.dependencies)
      (List.sorted_insertionSort leRel (cargo_manifest.dependencies.map Prod.fst))
      ((List.perm_insertionSort leRel (cargo_manifest.dependencies.map Prod.fst)).mem_iff.mpr
        hmem)
      hpre
      (fun y hy hpy =>
        hmin y ((List.perm_insertionSort leRel
          (cargo_manifest.dependencies.map Prod.fst)).mem_iff.mp hy) hpy)]
  rfl

/-- C6 witness: in the two-key manifest, `"bevy"` is the least key with the
`"bevy"` prefix and its version `"0.9"` is the one resolved. -/
theorem get_bevy_version_min_key_witness :
    get_bevy_version manifestTwoBevyKeys =
      (depsGet manifestTwoBevyKeys.dependencies "bevy").bind get_bevy_dependency_version :=
  get_bevy_version_min_key manifestTwoBevyKeys "bevy" (by decide) (by decide) (by decide)

/-- C10: for every URL whose host matches a backend's known host but whose
path-segment list has fewer than two entries, handle construction in all three
backends indexes the segment list out of bounds and panics; consequently a
successful handle construction implies the path had at least two segments. -/
theorem handle_construction_needs_two_segments (ghc : GithubClient)
    (cc : CratesioClient) (glc : GitlabClient) (segments : List String)
    (hlen : segments.length < 2) :
    ghc.try_get_repository_client ⟨some "github.com", some segments⟩ = RunResult.panics ∧
    cc.try_get_repository_client ⟨some "crates.io", some segments⟩ = RunResult.panics ∧
    glc.try_get_repository_client ⟨some "gitlab.com", some segments⟩ = RunResult.panics ∧
    (∀ (host : Option String) (segs : List String) (r : GithubRepoClient),
        ghc.try_get_repository_client ⟨host, some segs⟩ = RunResult.ok r →
          2 ≤ segs.length) ∧
    (∀ (host : Option String) (segs : List String) (r : CratesioCrateClient),
        cc.try_get_repository_client ⟨host, some segs⟩ = RunResult.ok r →
          2 ≤ segs.length) ∧
    (∀ (host : Option String) (segs : List String) (r : GitlabRepoClient),
        glc.try_get_repository_client ⟨host, some segs⟩ = RunResult.ok r →
          2 ≤ segs.length) := by
  have hshape : segments = [] ∨ ∃ a, segments = [a] := by
    match segments, hlen with
    | [], _ => exact Or.inl rfl
    | [a], _ => exact Or.inr ⟨a, rfl⟩
  refine ⟨?_, ?_, ?_, ?_, ?_, ?_⟩
  · rcases hshape with rfl | ⟨a, rfl⟩ <;> rfl
  · rcases hshape with rfl | ⟨a, rfl⟩ <;> rfl
  · rcases hshape with rfl | ⟨a, rfl⟩ <;> rfl
  · intro host segs r hr
    cases host with
    | none => exact RunResult.noConfusion hr
    | some h =>
      simp only [GithubClient.try_get_repository_client] at hr
      by_cases hh : h = "github.com"
      · rw [if_neg (fun hn => hn hh)] at hr
        cases h0 : segs[0]? with
        | none =>
          cases h1 : segs[1]? with
          | none => rw [h0, h1] at hr; exact RunResult.noConfusion hr
          | some v => rw [h0, h1] at hr; exact RunResult.noConfusion hr
        | some u =>
          cases h1 : segs[1]? with
          | none => rw [h0, h1] at hr; exact RunResult.noConfusion hr
          | some v => exact two_le_length_of_getElem_one h1
      · rw [if_pos hh] at hr
        exact RunResult.noConfusion hr
  · intro host segs r hr
    cases host with
    | none => exact RunResult.noConfusion hr
    | some h =>
      simp only [CratesioClient.try_get_repository_client] at hr
      by_cases hh : h = "crates.io"
      · rw [if_neg (fun hn => hn hh)] at hr
        cases h1 : segs[1]? with
        | none => rw [h1] at hr; exact RunResult.noConfusion hr
        | some v => exact two_le_length_of_getElem_one h1
      · rw [if_pos hh] at hr
        exact RunResult.noConfusion hr
  · intro host segs r hr
    cases host with
    | none => exact RunResult.noConfusion hr
    | some h =>
      simp only [GitlabClient.try_get_repository_client] at hr
      by_cases hh : h = "gitlab.com"
      · rw [if_neg (fun hn => hn hh)] at hr
        cases h1 : segs[1]? with
        | none => rw [h1] at hr; exact RunResult.noConfusion hr
        | some v => exact two_le_length_of_getElem_one h1
      · rw [if_pos hh] at hr
        exact RunResult.noConfusion hr

/-- C10 witness: with the single-segment path of `https://github.com`,
`https://crates.io/` or `https://gitlab.com` (path `"/"`, one empty segment),
all three constructions panic. -/
theorem handle_construction_needs_two_segments_witness :
    (GithubClient.mk "token").try_get_repository_client
        ⟨some "github.com", some [""]⟩ = RunResult.panics ∧
    (CratesioClient.mk (fun _ => Except.ok [])).try_get_repository_client
        ⟨some "crates.io", some [""]⟩ = RunResult.panics ∧
    (GitlabClient.mk "token" (fun _ => Except.ok [])).try_get_repository_client
        ⟨some "gitlab.com", some [""]⟩ = RunResult.panics :=
  ⟨(handle_construction_needs_two_segments (GithubClient.mk "token")
      (CratesioClient.mk (fun _ => Except.ok []))
      (GitlabClient.mk "token" (fun _ => Except.ok [])) [""] (by decide)).1,
   (handle_construction_needs_two_segments (GithubClient.mk "token")
      (CratesioClient.mk (fun _ => Except.ok []))
      (GitlabClient.mk "token" (fun _ => Except.ok [])) [""] (by decide)).2.1,
   (handle_construction_needs_two_segments (GithubClient.mk "token")
      (CratesioClient.mk (fun _ => Except.ok []))
      (GitlabClient.mk "token" (fun _ => Except.ok [])) [""] (by decide)).2.2.1⟩
